import Mathlib

/-!
Shallow embedding of src/chatbot/server.py, the TinyLLM web chatbot.

Python strings are modelled as List Char; Python None as Option.none;
raised exceptions as explicit result variants.  Global mutable state
(prompt, visible, remember, context) is threaded explicitly.  The remote
provider (openai.ChatCompletion.create and the streamed response it
returns) is modelled as input data: a list of per-attempt outcomes, each
either a successful stream or a raised exception.
-/

namespace TinyChat

/-- Python substring test (pat in hay) on character lists. -/
def hasSubstr (pat : List Char) : List Char → Bool
  | [] => pat.isPrefixOf []
  | c :: rest => pat.isPrefixOf (c :: rest) || hasSubstr pat rest

/-- One message of the conversation: a dict with keys role and content
(server.py line 68 and friends). -/
structure Turn where
  role : String
  content : List Char
deriving DecidableEq, Repr

/-- One socketio.emit broadcast: a dict with keys update and voice. -/
structure Evt where
  update : List Char
  voice : String
deriving DecidableEq, Repr

/-- A Python exception, split by the only class test the code makes:
except openai.error.OpenAIError at server.py line 87 versus any other
exception class. -/
inductive PyExc where
  | openaiError (msg : List Char)
  | otherExc (msg : List Char)
deriving DecidableEq, Repr

/-- The streamed response returned by a successful call to
openai.ChatCompletion.create with stream=True: the delta events in
provider order, each carrying its content field when present
(role-only deltas are none), plus an optional exception raised while
iterating the stream after the listed events were yielded. -/
structure Stream where
  events : List (Option (List Char))
  iterExc : Option PyExc
deriving DecidableEq, Repr

/-- Outcome of one call to openai.ChatCompletion.create. -/
abbrev Attempt := Except PyExc Stream

/-- server.py line 67: the base system prompt string. -/
def baseprompt (agentname formattedDate : String) : List Char :=
  ("You are " ++ agentname ++ ", a highly intelligent assistant. " ++
    "Keep your answers brief and accurate. Current date is " ++ formattedDate ++ ".").data

def systemTurn (bp : List Char) : Turn := ⟨"system", bp⟩

def userTurn (p : List Char) : Turn := ⟨"user", p⟩

def assistantTurn (t : List Char) : Turn := ⟨"assistant", t⟩

/-- server.py lines 68, 133, 101 and 201: context is (re)set to the
one-element list holding the system turn with the base prompt. -/
def initContext (bp : List Char) : List Turn := [systemTurn bp]

/-- The overflow pattern matched at server.py line 90. -/
def overflowPat : List Char := "maximum context length".data

/-- server.py line 103: the memory-reset notice, voice user. -/
def memoryResetEvt : Evt := ⟨"[Memory Reset]".data, "user"⟩

/-- server.py line 199: the generic user-visible error, voice ai. -/
def errorEvt : Evt := ⟨"An error occurred - unable to complete.".data, "ai"⟩

/-- server.py line 203: end-of-exchange marker, empty update, voice done. -/
def doneEvt : Evt := ⟨"".data, "done"⟩

/-- The mutable state read and written by ask: the (local) prompt
argument, the global context and remember flags, and the broadcasts
emitted so far. -/
structure AskState where
  prompt : List Char
  context : List Turn
  remember : Bool
  events : List Evt
deriving DecidableEq, Repr

/-- server.py lines 90-103: the overflow handler body, run after the
speculative user turn has been popped.  Exactly one rung applies:
1. len(prompt) > 1000: prompt = prompt[:len(prompt)//4] + separator +
   prompt[-len(prompt)//4:] where the separator is space dot dot dot
   space.  In Python the unary minus binds tighter than //, so the
   second slice takes the last ceil(L/4) characters, i.e.
   drop (L - (L+3)/4); the first slice is the first floor(L/4)
   characters, i.e. take (L/4).
2. len(context) > 4: context = context[:1] + context[3:].
3. otherwise: context is reset to the single system turn and the
   memory-reset notice is emitted. -/
def shrinkStep (bp : List Char) (s : AskState) : AskState :=
  if s.prompt.length > 1000 then
    { s with prompt := s.prompt.take (s.prompt.length / 4) ++ " ... ".data ++
        s.prompt.drop (s.prompt.length - (s.prompt.length + 3) / 4) }
  else if s.context.length > 4 then
    { s with context := s.context.take 1 ++ s.context.drop 3 }
  else
    { s with context := [systemTurn bp], events := s.events ++ [memoryResetEvt] }

/-- Result of ask: the loop either returns the response stream,
propagates an exception that the except clause for OpenAIError does
not catch, or is still retrying when the supplied attempt outcomes run
out (modelling the unbounded while-not-response loop at server.py
line 76). -/
inductive AskResult where
  | ok (stream : Stream) (s : AskState)
  | raised (e : PyExc) (s : AskState)
  | exhausted (s : AskState)
deriving DecidableEq, Repr

/-- The state carried by an AskResult. -/
def AskResult.st : AskResult → AskState
  | .ok _ s => s
  | .raised _ s => s
  | .exhausted s => s

/-- server.py lines 76-103: the while-not-response loop of ask.  Each
iteration appends the current prompt as a user turn and makes one
provider attempt.  On success the loop exits; on OpenAIError the
speculative user turn is popped (context.pop() at line 89) and, if the
message matches the overflow pattern, one rung of the shrink ladder
runs before retrying; an exception of any other class propagates, with
the speculative user turn still appended, since the pop sits inside
the except clause. -/
def askLoop (bp : List Char) : List Attempt → AskState → AskResult
  | [], s => .exhausted s
  | attempt :: rest, s =>
    let appended : AskState := { s with context := s.context ++ [userTurn s.prompt] }
    match attempt with
    | .ok stream => .ok stream appended
    | .error (.otherExc m) => .raised (.otherExc m) appended
    | .error (.openaiError m) =>
      let popped : AskState := { appended with context := appended.context.dropLast }
      if hasSubstr overflowPat m then
        askLoop bp rest (shrinkStep bp popped)
      else
        askLoop bp rest popped

/-- server.py lines 71-108: ask(prompt).  After the request loop
succeeds, lines 105-107 run: if remember is false, it is set back to
true and context.pop() removes the just-appended user turn — note this
happens before any streaming is consumed in send_update. -/
def ask (bp : List Char) (attempts : List Attempt) (s : AskState) : AskResult :=
  match askLoop bp attempts s with
  | .ok stream s1 =>
    if s1.remember then .ok stream s1
    else .ok stream { s1 with remember := true, context := s1.context.dropLast }
  | r => r

/-- The globals as seen by the send_update relay thread, plus the local
variable completion_text (none while it has never been assigned in the
function body: referencing it then raises UnboundLocalError). -/
structure RelayState where
  prompt : List Char
  visible : Bool
  remember : Bool
  context : List Turn
  completionText : Option (List Char)
deriving DecidableEq, Repr

/-- How one pass of the send_update body ends: normally; by raising an
uncaught UnboundLocalError at the debug print of completion_text
(server.py line 206, outside the try block); or still stuck inside the
retry loop of ask. -/
inductive Outcome where
  | normal
  | crashedUnboundLocal
  | stuck
deriving DecidableEq, Repr

structure RelayResult where
  state : RelayState
  events : List Evt
  outcome : Outcome
deriving DecidableEq, Repr

/-- server.py lines 177-206: one pass of the send_update loop body for
a non-empty pending prompt.
Lines 179-180: if visible, echo the prompt with voice user.
Line 183: response = ask(prompt).
Lines 184-194: completion_text starts empty, then for each delta event
with a content field, the chunk is accumulated and broadcast with
voice ai; an exception raised while iterating lands in the except
clause, with completion_text already assigned.
Line 196: the accumulated text is appended as an assistant turn.
Lines 197-201: the bare except broadcasts the generic error and resets
context; completion_text was never assigned when the exception came
out of ask itself.
Line 203: the done marker is broadcast; line 204 clears the prompt.
Lines 205-206: under DEBUG, completion_text is printed — an
UnboundLocalError if it has never been assigned. -/
def relayIterate (bp : List Char) (debug : Bool) (attempts : List Attempt)
    (s : RelayState) : RelayResult :=
  let echo : List Evt := if s.visible then [⟨s.prompt, "user"⟩] else []
  match ask bp attempts ⟨s.prompt, s.context, s.remember, []⟩ with
  | .exhausted s1 =>
    ⟨{ s with context := s1.context, remember := s1.remember },
      echo ++ s1.events, .stuck⟩
  | .raised _ s1 =>
    ⟨⟨"".data, s.visible, s1.remember, initContext bp, s.completionText⟩,
      echo ++ s1.events ++ [errorEvt, doneEvt],
      if debug && (s.completionText == none) then .crashedUnboundLocal else .normal⟩
  | .ok stream s1 =>
    let frags := stream.events.filterMap id
    let completion := frags.flatten
    let aiEvs := frags.map (fun c => (⟨c, "ai"⟩ : Evt))
    match stream.iterExc with
    | some _ =>
      ⟨⟨"".data, s.visible, s1.remember, initContext bp, some completion⟩,
        echo ++ s1.events ++ aiEvs ++ [errorEvt, doneEvt], .normal⟩
    | none =>
      ⟨⟨"".data, s.visible, s1.remember, s1.context ++ [assistantTurn completion],
          some completion⟩,
        echo ++ s1.events ++ aiEvs ++ [doneEvt], .normal⟩

/-- Outcome of requests.get(url): the HTTP status code and the text of
the paragraph tags BeautifulSoup would extract from the body, or a
raised exception. -/
structure FetchResp where
  status : Nat
  paragraphs : List (List Char)
deriving DecidableEq, Repr

abbrev FetchOutcome := Except (List Char) FetchResp

/-- server.py lines 110-127: extract_text_from_blog(url).  On a 200
response it returns the paragraph texts joined by newlines; on any
other status, or if an exception was raised, it only prints and falls
off the end — i.e. it returns Python None, here Option.none. -/
def extract_text_from_blog (fetch : FetchOutcome) : Option (List Char) :=
  match fetch with
  | .ok resp =>
    if resp.status == 200 then
      some (List.intercalate "\n".data resp.paragraphs)
    else
      none
  | .error _ => none

/-- The globals written by the send_message route. -/
structure Inbox where
  prompt : List Char
  visible : Bool
  remember : Bool
deriving DecidableEq, Repr

def summarizeHeader : List Char := "Summarize the following text:\n".data

/-- server.py lines 143-163: the send_message POST handler with
incoming fields prompt and show.  On the URL path, when the prompt
starts with http, it forces visible and remember to False, fetches the
page, and sets the prompt to the summarize header followed by the blog
text; but line 158 evaluates len(blogtext) — a TypeError when
extract_text_from_blog returned None.  The result is the new globals
plus the broadcasts made, or the name of the uncaught exception. -/
def send_message (fetch : FetchOutcome) (p : List Char) (showFlag : Bool)
    (g : Inbox) : Except String (Inbox × List Evt) :=
  if ("http".data).isPrefixOf p then
    match extract_text_from_blog fetch with
    | none => .error "TypeError"
    | some blogtext =>
      .ok (⟨summarizeHeader ++ blogtext, false, false⟩,
        [⟨"[Reading: ".data ++ p ++ "]".data, "user"⟩])
  else
    .ok (⟨p, showFlag, g.remember⟩, [])

/-- server.py lines 175-178: the relay picks up the slot content when
it is non-empty. -/
def inboxPoll (slot : List Char) : Option (List Char) :=
  if slot = "".data then none else some slot

/-- Iterated shrink ladder, for the termination analysis of the
overflow retry loop. -/
def shrinkIter (bp : List Char) : Nat → AskState → AskState
  | 0, s => s
  | n + 1, s => shrinkIter bp n (shrinkStep bp s)

/-- Context invariant: non-empty with the system turn first. -/
def contextInv (bp : List Char) (c : List Turn) : Prop :=
  c ≠ [] ∧ c.head? = some (systemTurn bp)

instance (bp : List Char) (c : List Turn) : Decidable (contextInv bp c) := by
  unfold contextInv
  infer_instance

/-- A concrete base prompt used by the concrete evaluations below. -/
def bp0 : List Char := baseprompt "Jarvis" "09/23/2023"

/-- The invariant delivered by the request loop: on success the context
additionally ends with the just-appended user turn, so the pop at
line 107 also preserves the invariant. -/
def askResultInv (bp : List Char) : AskResult → Prop
  | .ok _ s1 => contextInv bp s1.context ∧ contextInv bp s1.context.dropLast
  | .raised _ s1 => contextInv bp s1.context
  | .exhausted s1 => contextInv bp s1.context

/-- An oversized prompt for concrete evaluations of rung 1. -/
def pLong : List Char := List.replicate 1001 'a'

/-- A six-turn context for concrete evaluations of rung 2. -/
def ctx6 (bp : List Char) : List Turn :=
  [systemTurn bp, userTurn "a".data, assistantTurn "b".data,
    userTurn "c".data, assistantTurn "d".data, userTurn "e".data]

lemma pLong_length : pLong.length = 1001 := by
  unfold pLong
  rw [List.length_replicate]

lemma head?_append_of_head? {α : Type} {c : List α} {t : α} (h : c.head? = some t)
    (l : List α) : (c ++ l).head? = some t := by
  cases c <;> simp_all

lemma contextInv_append {bp : List Char} {c : List Turn} (h : contextInv bp c)
    (l : List Turn) : contextInv bp (c ++ l) := by
  obtain ⟨h1, h2⟩ := h
  constructor
  · intro hn
    rw [List.append_eq_nil] at hn
    exact h1 hn.1
  · exact head?_append_of_head? h2 l

lemma shrinkStep_rung1 {bp : List Char} {s : AskState} (h : 1000 < s.prompt.length) :
    shrinkStep bp s = { s with prompt := s.prompt.take (s.prompt.length / 4) ++
      " ... ".data ++ s.prompt.drop (s.prompt.length - (s.prompt.length + 3) / 4) } := by
  unfold shrinkStep
  rw [if_pos h]

lemma shrinkStep_rung2 {bp : List Char} {s : AskState} (h1 : s.prompt.length ≤ 1000)
    (h2 : 4 < s.context.length) :
    shrinkStep bp s = { s with context := s.context.take 1 ++ s.context.drop 3 } := by
  unfold shrinkStep
  rw [if_neg (by omega), if_pos h2]

lemma shrinkStep_rung3 {bp : List Char} {s : AskState} (h1 : s.prompt.length ≤ 1000)
    (h2 : s.context.length ≤ 4) :
    shrinkStep bp s
      = { s with context := [systemTurn bp], events := s.events ++ [memoryResetEvt] } := by
  unfold shrinkStep
  rw [if_neg (by omega), if_neg (by omega)]

lemma shrinkStep_events_user {bp : List Char} {s : AskState}
    (h : ∀ e ∈ s.events, e.voice = "user") :
    ∀ e ∈ (shrinkStep bp s).events, e.voice = "user" := by
  unfold shrinkStep
  split_ifs
  · exact h
  · exact h
  · intro e he
    rcases List.mem_append.mp he with h1 | h1
    · exact h e h1
    · rw [List.mem_singleton] at h1
      rw [h1]
      rfl

lemma askLoop_events_user (bp : List Char) (att : List Attempt) :
    ∀ s : AskState, (∀ e ∈ s.events, e.voice = "user") →
      ∀ e ∈ (askLoop bp att s).st.events, e.voice = "user" := by
  induction att with
  | nil =>
    intro s h
    simpa [askLoop, AskResult.st] using h
  | cons attempt rest ih =>
    intro s h
    match attempt with
    | .ok stream => simpa [askLoop, AskResult.st] using h
    | .error (.otherExc m) => simpa [askLoop, AskResult.st] using h
    | .error (.openaiError m) =>
      simp only [askLoop]
      split
      · exact ih _ (shrinkStep_events_user h)
      · exact ih _ h

lemma ask_events_user (bp : List Char) (att : List Attempt) (s : AskState)
    (h : ∀ e ∈ s.events, e.voice = "user") :
    ∀ e ∈ (ask bp att s).st.events, e.voice = "user" := by
  have hl := askLoop_events_user bp att s h
  cases hask : askLoop bp att s with
  | ok stream s1 =>
    rw [hask] at hl
    by_cases hr : s1.remember
    · simpa [ask, hask, hr, AskResult.st] using hl
    · simpa [ask, hask, hr, AskResult.st] using hl
  | raised e s1 =>
    rw [hask] at hl
    simpa [ask, hask, AskResult.st] using hl
  | exhausted s1 =>
    rw [hask] at hl
    simpa [ask, hask, AskResult.st] using hl

lemma contextInv_take_drop {bp : List Char} {c : List Turn} (h : contextInv bp c) :
    contextInv bp (c.take 1 ++ c.drop 3) := by
  obtain ⟨hn, hh⟩ := h
  cases c with
  | nil => exact absurd rfl hn
  | cons a t =>
    rw [List.head?_cons, Option.some_inj] at hh
    exact ⟨by simp, by simp [hh]⟩

lemma shrinkStep_inv {bp : List Char} {s : AskState} (h : contextInv bp s.context) :
    contextInv bp (shrinkStep bp s).context := by
  unfold shrinkStep
  split_ifs
  · exact h
  · exact contextInv_take_drop h
  · exact ⟨by simp, rfl⟩

lemma askLoop_inv (bp : List Char) (att : List Attempt) :
    ∀ s : AskState, contextInv bp s.context → askResultInv bp (askLoop bp att s) := by
  induction att with
  | nil =>
    intro s h
    simpa [askLoop, askResultInv] using h
  | cons attempt rest ih =>
    intro s h
    match attempt with
    | .ok stream =>
      simp only [askLoop, askResultInv]
      exact ⟨contextInv_append h _, by simpa using h⟩
    | .error (.otherExc m) =>
      simp only [askLoop, askResultInv]
      exact contextInv_append h _
    | .error (.openaiError m) =>
      simp only [askLoop]
      split
      · apply ih
        apply shrinkStep_inv
        simpa using h
      · apply ih
        simpa using h

lemma ask_inv (bp : List Char) (att : List Attempt) (s : AskState)
    (h : contextInv bp s.context) : contextInv bp ((ask bp att s).st.context) := by
  have hl := askLoop_inv bp att s h
  cases hask : askLoop bp att s with
  | ok stream s1 =>
    rw [hask] at hl
    simp only [askResultInv] at hl
    by_cases hr : s1.remember
    · simpa [ask, hask, hr, AskResult.st] using hl.1
    · simpa [ask, hask, hr, AskResult.st] using hl.2
  | raised e s1 =>
    rw [hask] at hl
    simpa [ask, hask, AskResult.st, askResultInv] using hl
  | exhausted s1 =>
    rw [hask] at hl
    simpa [ask, hask, AskResult.st, askResultInv] using hl

lemma relay_inv (bp : List Char) (debug : Bool) (att : List Attempt) (s : RelayState)
    (h : contextInv bp s.context) :
    contextInv bp ((relayIterate bp debug att s).state.context) := by
  have ha := ask_inv bp att ⟨s.prompt, s.context, s.remember, []⟩ h
  cases hask : ask bp att ⟨s.prompt, s.context, s.remember, []⟩ with
  | ok stream s1 =>
    rw [hask] at ha
    simp only [AskResult.st] at ha
    cases hexc : stream.iterExc with
    | some e =>
      simp only [relayIterate, hask, hexc]
      exact ⟨by simp [initContext], rfl⟩
    | none =>
      simp only [relayIterate, hask, hexc]
      exact contextInv_append ha _
  | raised e s1 =>
    simp only [relayIterate, hask]
    exact ⟨by simp [initContext], rfl⟩
  | exhausted s1 =>
    rw [hask] at ha
    simpa [relayIterate, hask, AskResult.st] using ha

lemma count_eq_zero_of_voice_ne (v : String) (l : List Evt)
    (hv : ∀ e ∈ l, e.voice = v) (a : Evt) (ha : a.voice ≠ v) : l.count a = 0 := by
  refine List.count_eq_zero.mpr ?_
  intro hmem
  exact ha (hv a hmem)

lemma echo_voice_user (s : RelayState) :
    ∀ e ∈ (if s.visible then [(⟨s.prompt, "user"⟩ : Evt)] else []), e.voice = "user" := by
  cases s.visible <;> simp

lemma aiEvs_voice_ai (frags : List (List Char)) :
    ∀ e ∈ frags.map (fun c => (⟨c, "ai"⟩ : Evt)), e.voice = "ai" := by
  intro e he
  rw [List.mem_map] at he
  obtain ⟨x, _, hx⟩ := he
  rw [← hx]

lemma getLast?_append_pair {α : Type} (l : List α) (a b : α) :
    (l ++ [a, b]).getLast? = some b := by
  rw [show l ++ [a, b] = (l ++ [a]) ++ [b] by simp]
  simp

lemma filter_ai_of_user (l : List Evt) (h : ∀ e ∈ l, e.voice = "user") :
    l.filter (fun ev => ev.voice == "ai") = [] := by
  rw [List.filter_eq_nil_iff]
  intro a ha
  rw [h a ha]
  decide

lemma filter_ai_map (frags : List (List Char)) :
    (frags.map (fun c => (⟨c, "ai"⟩ : Evt))).filter (fun ev => ev.voice == "ai")
      = frags.map (fun c => (⟨c, "ai"⟩ : Evt)) := by
  induction frags with
  | nil => rfl
  | cons x xs ih => simp [List.filter, ih]

lemma map_update_mk_ai (frags : List (List Char)) :
    ((frags.map (fun c => (⟨c, "ai"⟩ : Evt))).map Evt.update) = frags := by
  induction frags with
  | nil => rfl
  | cons x xs ih => simp [ih]

lemma shrinkStep_prompt_of_le {bp : List Char} {s : AskState}
    (h : s.prompt.length ≤ 1000) : (shrinkStep bp s).prompt = s.prompt := by
  unfold shrinkStep
  split_ifs with h1 h2
  · exact absurd h1 (by omega)
  · rfl
  · rfl

lemma shrinkIter_fixed (bp : List Char) (n : Nat) :
    ∀ s : AskState, s.context = [systemTurn bp] → s.prompt.length ≤ 1000 →
      (shrinkIter bp n s).context = [systemTurn bp] := by
  induction n with
  | zero =>
    intro s h _
    exact h
  | succ k ih =>
    intro s hc hp
    have h3 := @shrinkStep_rung3 bp s hp (by simp [hc])
    show (shrinkIter bp k (shrinkStep bp s)).context = _
    rw [h3]
    exact ih _ rfl hp

lemma shrinkIter_reaches (bp : List Char) (n : Nat) :
    ∀ s : AskState, s.prompt.length ≤ 1000 → 1 ≤ s.context.length →
      s.context.length ≤ n → (shrinkIter bp n s).context = [systemTurn bp] := by
  induction n with
  | zero =>
    intro s _ h1 h2
    omega
  | succ k ih =>
    intro s hp h1 h2
    by_cases hlen : 4 < s.context.length
    · have h4 := @shrinkStep_rung2 bp s hp hlen
      have hlen2 : (s.context.take 1 ++ s.context.drop 3).length = s.context.length - 2 := by
        rw [List.length_append, List.length_take, List.length_drop]
        omega
      show (shrinkIter bp k (shrinkStep bp s)).context = _
      rw [h4]
      apply ih
      · exact hp
      · show 1 ≤ (s.context.take 1 ++ s.context.drop 3).length
        rw [hlen2]
        omega
      · show (s.context.take 1 ++ s.context.drop 3).length ≤ k
        rw [hlen2]
        omega
    · have h3 := @shrinkStep_rung3 bp s hp (by omega)
      show (shrinkIter bp k (shrinkStep bp s)).context = _
      rw [h3]
      exact shrinkIter_fixed bp k _ rfl hp

/-- Claim C1: in every reachable state, the context list is non-empty
and its element at index 0 is the system turn carrying the base prompt;
the initial context, the overflow shrink ladder (truncation and reset),
the request loop, and the full relay iteration (including its
failure-path reset) all preserve this. -/
theorem context_system_head_invariant (bp p : List Char) (c : List Turn) (rem : Bool)
    (evs : List Evt) (debug : Bool) (att : List Attempt) (s : RelayState) :
    contextInv bp (initContext bp) ∧
    (contextInv bp c → contextInv bp (shrinkStep bp ⟨p, c, rem, evs⟩).context) ∧
    (contextInv bp c → contextInv bp ((ask bp att ⟨p, c, rem, evs⟩).st.context)) ∧
    (contextInv bp s.context →
      contextInv bp ((relayIterate bp debug att s).state.context)) := by
  refine ⟨⟨by simp [initContext], rfl⟩, ?_, ?_, ?_⟩
  · intro h
    exact shrinkStep_inv h
  · intro h
    exact ask_inv bp att _ h
  · intro h
    exact relay_inv bp debug att s h

/-- Witness for C1 at concrete inputs. -/
theorem context_system_head_invariant_witness :
    contextInv bp0 (initContext bp0) ∧
    contextInv bp0 (shrinkStep bp0 ⟨"q".data, [systemTurn bp0], true, []⟩).context ∧
    contextInv bp0 ((ask bp0 [Except.ok ⟨[some "hi".data], none⟩]
      ⟨"q".data, [systemTurn bp0], true, []⟩).st.context) ∧
    contextInv bp0 ((relayIterate bp0 false [Except.ok ⟨[some "hi".data], none⟩]
      ⟨"q".data, true, true, [systemTurn bp0], none⟩).state.context) := by
  have h := context_system_head_invariant bp0 "q".data [systemTurn bp0] true [] false
    [Except.ok ⟨[some "hi".data], none⟩] ⟨"q".data, true, true, [systemTurn bp0], none⟩
  exact ⟨h.1, h.2.1 (by decide), h.2.2.1 (by decide), h.2.2.2 (by decide)⟩

/-- Claim C4: on each context-overflow error, after the speculative user
turn is popped, exactly one rung of the shrink ladder applies, in strict
priority order: a prompt longer than 1000 characters is replaced by its
first quarter, the separator, and its last quarter with the context
untouched; else a context of more than 4 turns loses the turns at
positions 1 and 2, keeping the system turn and positions 3 onward; else
the context becomes exactly the system turn and the memory-reset notice
is broadcast; the request is then retried. -/
theorem overflow_ladder_rungs (bp p m : List Char) (c : List Turn) (rem : Bool)
    (evs : List Evt) (rest : List Attempt) :
    (1000 < p.length →
      (shrinkStep bp ⟨p, c, rem, evs⟩).context = c ∧
      (shrinkStep bp ⟨p, c, rem, evs⟩).events = evs ∧
      (shrinkStep bp ⟨p, c, rem, evs⟩).prompt
        = p.take (p.length / 4) ++ " ... ".data
            ++ p.drop (p.length - (p.length + 3) / 4)) ∧
    (p.length ≤ 1000 → 4 < c.length →
      (shrinkStep bp ⟨p, c, rem, evs⟩).context = (c.eraseIdx 1).eraseIdx 1 ∧
      (shrinkStep bp ⟨p, c, rem, evs⟩).context = c.take 1 ++ c.drop 3 ∧
      (shrinkStep bp ⟨p, c, rem, evs⟩).prompt = p ∧
      (shrinkStep bp ⟨p, c, rem, evs⟩).events = evs) ∧
    (p.length ≤ 1000 → c.length ≤ 4 →
      (shrinkStep bp ⟨p, c, rem, evs⟩).context = [systemTurn bp] ∧
      (shrinkStep bp ⟨p, c, rem, evs⟩).prompt = p ∧
      (shrinkStep bp ⟨p, c, rem, evs⟩).events = evs ++ [memoryResetEvt]) ∧
    (hasSubstr overflowPat m = true →
      askLoop bp (Except.error (PyExc.openaiError m) :: rest) ⟨p, c, rem, evs⟩
        = askLoop bp rest (shrinkStep bp ⟨p, c, rem, evs⟩)) := by
  refine ⟨?_, ?_, ?_, ?_⟩
  · intro h
    rw [shrinkStep_rung1 h]
    exact ⟨rfl, rfl, rfl⟩
  · intro hp h4
    rw [shrinkStep_rung2 hp h4]
    refine ⟨?_, rfl, rfl, rfl⟩
    show c.take 1 ++ c.drop 3 = (c.eraseIdx 1).eraseIdx 1
    match c, h4 with
    | a :: b :: d :: rest2, _ => simp [List.eraseIdx]
  · intro hp h4
    rw [shrinkStep_rung3 hp h4]
    exact ⟨rfl, rfl, rfl⟩
  · intro hm
    simp only [askLoop]
    rw [hm]
    simp

/-- Witness for C4 at concrete inputs, one per rung plus the retry equation. -/
theorem overflow_ladder_rungs_witness :
    (shrinkStep bp0 ⟨pLong, [systemTurn bp0], true, []⟩).context = [systemTurn bp0] ∧
    (shrinkStep bp0 ⟨"q".data, ctx6 bp0, true, []⟩).context
      = ((ctx6 bp0).eraseIdx 1).eraseIdx 1 ∧
    (shrinkStep bp0 ⟨"q".data, [systemTurn bp0], true, []⟩).context = [systemTurn bp0] ∧
    askLoop bp0 [Except.error (PyExc.openaiError overflowPat)]
        ⟨"q".data, [systemTurn bp0], true, []⟩
      = askLoop bp0 [] (shrinkStep bp0 ⟨"q".data, [systemTurn bp0], true, []⟩) := by
  refine ⟨?_, ?_, ?_, ?_⟩
  · exact ((overflow_ladder_rungs bp0 pLong "x".data [systemTurn bp0] true [] []).1
      (by rw [pLong_length]; omega)).1
  · exact ((overflow_ladder_rungs bp0 "q".data "x".data (ctx6 bp0) true [] []).2.1
      (by decide) (by decide)).1
  · exact ((overflow_ladder_rungs bp0 "q".data "x".data [systemTurn bp0] true [] []).2.2.1
      (by decide) (by decide)).1
  · exact (overflow_ladder_rungs bp0 "q".data overflowPat [systemTurn bp0] true [] []).2.2.2
      (by decide)

/-- Claim C5: the shrink ladder is monotonically size-reducing and
terminating: while the prompt exceeds 1000 characters an application
strictly shrinks the prompt and leaves the context alone; once the
prompt rung no longer applies, each application strictly shrinks any
context of more than one turn, and iterating the ladder length-of-C
times reaches the one-turn system-only context. -/
theorem shrink_ladder_monotone_terminating (bp p : List Char) (c : List Turn)
    (rem : Bool) (evs : List Evt) (n : Nat) :
    (1000 < p.length →
      (shrinkStep bp ⟨p, c, rem, evs⟩).prompt.length < p.length ∧
      (shrinkStep bp ⟨p, c, rem, evs⟩).context = c) ∧
    (p.length ≤ 1000 → 1 < c.length →
      (shrinkStep bp ⟨p, c, rem, evs⟩).context.length < c.length ∧
      (shrinkStep bp ⟨p, c, rem, evs⟩).prompt = p) ∧
    (p.length ≤ 1000 → 1 ≤ c.length → c.length ≤ n →
      (shrinkIter bp n ⟨p, c, rem, evs⟩).context = [systemTurn bp]) := by
  refine ⟨?_, ?_, ?_⟩
  · intro h
    rw [shrinkStep_rung1 h]
    refine ⟨?_, rfl⟩
    show (p.take (p.length / 4) ++ " ... ".data
      ++ p.drop (p.length - (p.length + 3) / 4)).length < p.length
    have h5 : (" ... ".data : List Char).length = 5 := rfl
    rw [List.length_append, List.length_append, List.length_take, List.length_drop, h5]
    omega
  · intro hp hc
    by_cases h4 : 4 < c.length
    · rw [shrinkStep_rung2 hp h4]
      refine ⟨?_, rfl⟩
      show (c.take 1 ++ c.drop 3).length < c.length
      rw [List.length_append, List.length_take, List.length_drop]
      omega
    · rw [shrinkStep_rung3 hp (show c.length ≤ 4 by omega)]
      exact ⟨by simpa using hc, rfl⟩
  · intro hp h1 h2
    exact shrinkIter_reaches bp n _ hp h1 h2

/-- Witness for C5 at concrete inputs. -/
theorem shrink_ladder_monotone_terminating_witness :
    (shrinkStep bp0 ⟨pLong, [systemTurn bp0], true, []⟩).prompt.length < pLong.length ∧
    (shrinkStep bp0 ⟨"q".data, ctx6 bp0, true, []⟩).context.length < (ctx6 bp0).length ∧
    (shrinkIter bp0 6 ⟨"q".data, ctx6 bp0, true, []⟩).context = [systemTurn bp0] := by
  refine ⟨?_, ?_, ?_⟩
  · exact ((shrink_ladder_monotone_terminating bp0 pLong [systemTurn bp0] true [] 1).1
      (by rw [pLong_length]; omega)).1
  · exact ((shrink_ladder_monotone_terminating bp0 "q".data (ctx6 bp0) true [] 1).2.1
      (by decide) (by decide)).1
  · exact (shrink_ladder_monotone_terminating bp0 "q".data (ctx6 bp0) true [] 6).2.2
      (by decide) (by decide) (by decide)

/-- Counterexample to claim C2: a provider error whose message does not
match the overflow pattern (here a rate-limit style OpenAIError) is
retried by the request loop and the retry succeeds — no error is
broadcast, the context is not reset, and the exchange ends normally,
contradicting the claimed transition to the Failed path. -/
theorem nonoverflow_error_retried_cex :
    (relayIterate bp0 false
        [Except.error (PyExc.openaiError "rate limit".data),
          Except.ok ⟨[some "hi".data], none⟩]
        ⟨"q".data, true, true, [systemTurn bp0], none⟩).events.count errorEvt = 0 ∧
    (relayIterate bp0 false
        [Except.error (PyExc.openaiError "rate limit".data),
          Except.ok ⟨[some "hi".data], none⟩]
        ⟨"q".data, true, true, [systemTurn bp0], none⟩).state.context
      = [systemTurn bp0, userTurn "q".data, assistantTurn "hi".data] ∧
    (relayIterate bp0 false
        [Except.error (PyExc.openaiError "rate limit".data),
          Except.ok ⟨[some "hi".data], none⟩]
        ⟨"q".data, true, true, [systemTurn bp0], none⟩).outcome = Outcome.normal := by
  decide

/-- Claim C2 as amended: an OpenAIError whose message does not match
the overflow pattern is caught inside the request loop, the speculative
user turn is popped, and the request is retried with prompt, context
and emitted events unchanged; only an exception that is not an
OpenAIError takes the Failed path, where exactly one user-visible error
is broadcast, the context is reset to the single system turn, and the
pending prompt is cleared. -/
theorem nonoverflow_openai_retried_nonopenai_fatal (bp m em p : List Char)
    (c : List Turn) (rem : Bool) (evs : List Evt) (rest : List Attempt) (debug : Bool)
    (s : RelayState) :
    (hasSubstr overflowPat m = false →
      askLoop bp (Except.error (PyExc.openaiError m) :: rest) ⟨p, c, rem, evs⟩
        = askLoop bp rest ⟨p, c, rem, evs⟩) ∧
    ((relayIterate bp debug (Except.error (PyExc.otherExc em) :: rest) s).state.context
        = initContext bp ∧
      (relayIterate bp debug
          (Except.error (PyExc.otherExc em) :: rest) s).events.count errorEvt = 1 ∧
      (relayIterate bp debug (Except.error (PyExc.otherExc em) :: rest) s).state.prompt
        = "".data) := by
  constructor
  · intro hm
    simp only [askLoop]
    rw [hm]
    simp
  · have hask : ask bp (Except.error (PyExc.otherExc em) :: rest)
        ⟨s.prompt, s.context, s.remember, []⟩
        = AskResult.raised (PyExc.otherExc em)
            ⟨s.prompt, s.context ++ [userTurn s.prompt], s.remember, []⟩ := by
      simp [ask, askLoop]
    refine ⟨?_, ?_, ?_⟩
    · simp [relayIterate, hask]
    · simp only [relayIterate, hask]
      rw [List.count_append, List.count_append]
      rw [count_eq_zero_of_voice_ne "user" _ (echo_voice_user s) errorEvt (by decide)]
      decide
    · simp [relayIterate, hask]

/-- Witness for the amended C2 at concrete inputs. -/
theorem nonoverflow_openai_retried_nonopenai_fatal_witness :
    askLoop bp0 [Except.error (PyExc.openaiError "rate limit".data),
        Except.ok ⟨[some "hi".data], none⟩] ⟨"q".data, [systemTurn bp0], true, []⟩
      = askLoop bp0 [Except.ok ⟨[some "hi".data], none⟩]
          ⟨"q".data, [systemTurn bp0], true, []⟩ ∧
    (relayIterate bp0 false [Except.error (PyExc.otherExc "net down".data)]
        ⟨"hi".data, true, true, [systemTurn bp0], some []⟩).events.count errorEvt = 1 := by
  constructor
  · exact (nonoverflow_openai_retried_nonopenai_fatal bp0 "rate limit".data "x".data
      "q".data [systemTurn bp0] true [] [Except.ok ⟨[some "hi".data], none⟩] false
      ⟨"hi".data, true, true, [systemTurn bp0], some []⟩).1 (by decide)
  · exact (nonoverflow_openai_retried_nonopenai_fatal bp0 "rate limit".data
      "net down".data "q".data [systemTurn bp0] true [] [] false
      ⟨"hi".data, true, true, [systemTurn bp0], some []⟩).2.2.1

/-- Counterexample to claim C3: a rememberInContext=false exchange that
completes successfully grows the context from 1 turn to 2 turns — the
user turn is popped inside ask before streaming and the assistant turn
is then appended, so the length is not preserved. -/
theorem remember_false_net_zero_cex :
    ([systemTurn bp0] : List Turn).length = 1 ∧
    (relayIterate bp0 false [Except.ok ⟨[some "ok".data], none⟩]
        ⟨"sum".data, false, false, [systemTurn bp0], none⟩).state.context
      = [systemTurn bp0, assistantTurn "ok".data] ∧
    (relayIterate bp0 false [Except.ok ⟨[some "ok".data], none⟩]
        ⟨"sum".data, false, false, [systemTurn bp0], none⟩).state.context.length = 2 := by
  decide

/-- Claim C3 as amended: for a rememberInContext=false exchange that
completes successfully, the speculative user turn is dropped inside ask
immediately after the request is accepted (and the remember flag is
reset to true) — before streaming, not after the assistant append — and
the assistant turn is then appended at commit, so the context after the
exchange is the context before it plus exactly the assistant turn: net
one turn added, not zero. -/
theorem remember_false_adds_one_turn (bp : List Char) (debug : Bool)
    (stream : Stream) (s : RelayState)
    (hrem : s.remember = false) (hexc : stream.iterExc = none) :
    ask bp [Except.ok stream] ⟨s.prompt, s.context, s.remember, []⟩
      = AskResult.ok stream ⟨s.prompt, s.context, true, []⟩ ∧
    (relayIterate bp debug [Except.ok stream] s).state.context
      = s.context ++ [assistantTurn ((stream.events.filterMap id).flatten)] ∧
    (relayIterate bp debug [Except.ok stream] s).state.context.length
      = s.context.length + 1 := by
  have hask : ask bp [Except.ok stream] ⟨s.prompt, s.context, s.remember, []⟩
      = AskResult.ok stream ⟨s.prompt, s.context, true, []⟩ := by
    simp [ask, askLoop, hrem]
  refine ⟨hask, ?_, ?_⟩
  · simp only [relayIterate, hask, hexc]
  · simp only [relayIterate, hask, hexc]
    rw [List.length_append]
    rfl

/-- Witness for the amended C3 at concrete inputs. -/
theorem remember_false_adds_one_turn_witness :
    (relayIterate bp0 false [Except.ok ⟨[some "ok".data], none⟩]
        ⟨"sum".data, false, false, [systemTurn bp0], none⟩).state.context
      = [systemTurn bp0] ++ [assistantTurn "ok".data] ∧
    (relayIterate bp0 false [Except.ok ⟨[some "ok".data], none⟩]
        ⟨"sum".data, false, false, [systemTurn bp0], none⟩).state.context.length
      = ([systemTurn bp0] : List Turn).length + 1 := by
  have h := remember_false_adds_one_turn bp0 false ⟨[some "ok".data], none⟩
    ⟨"sum".data, false, false, [systemTurn bp0], none⟩ rfl rfl
  exact ⟨h.2.1, h.2.2⟩

/-- Claim C6: for every successfully streamed exchange, the ai-tagged
broadcasts are exactly the content fragments in provider order
(non-content deltas skipped), and the concatenation of the broadcast
fragments equals the content of the assistant turn appended to the
context at commit. -/
theorem streaming_fragments_match_commit (bp : List Char) (debug : Bool)
    (att : List Attempt) (s : RelayState) (stream : Stream) (s1 : AskState)
    (hok : ask bp att ⟨s.prompt, s.context, s.remember, []⟩ = AskResult.ok stream s1)
    (hexc : stream.iterExc = none) :
    (((relayIterate bp debug att s).events.filter
        (fun ev => ev.voice == "ai")).map Evt.update)
      = stream.events.filterMap id ∧
    (relayIterate bp debug att s).state.context.getLast?
      = some (assistantTurn ((((relayIterate bp debug att s).events.filter
          (fun ev => ev.voice == "ai")).map Evt.update).flatten)) := by
  have husr : ∀ e ∈ s1.events, e.voice = "user" := by
    have h2 := ask_events_user bp att ⟨s.prompt, s.context, s.remember, []⟩ (by simp)
    rw [hok] at h2
    simpa [AskResult.st] using h2
  have hdone : ([doneEvt] : List Evt).filter (fun ev => ev.voice == "ai") = [] := rfl
  have hfil : (relayIterate bp debug att s).events.filter (fun ev => ev.voice == "ai")
      = (stream.events.filterMap id).map (fun c => (⟨c, "ai"⟩ : Evt)) := by
    simp only [relayIterate, hok, hexc]
    rw [List.filter_append, List.filter_append, List.filter_append]
    rw [filter_ai_of_user _ (echo_voice_user s), filter_ai_of_user _ husr,
      filter_ai_map, hdone]
    simp
  constructor
  · rw [hfil, map_update_mk_ai]
  · rw [hfil, map_update_mk_ai]
    simp only [relayIterate, hok, hexc]
    simp

/-- Witness for C6 at concrete inputs: two content fragments and one
role-only delta in between. -/
theorem streaming_fragments_match_commit_witness :
    (((relayIterate bp0 true [Except.ok ⟨[some "He".data, none, some "llo".data], none⟩]
        ⟨"q".data, true, true, [systemTurn bp0], none⟩).events.filter
          (fun ev => ev.voice == "ai")).map Evt.update)
      = [( "He".data : List Char), "llo".data] ∧
    (relayIterate bp0 true [Except.ok ⟨[some "He".data, none, some "llo".data], none⟩]
        ⟨"q".data, true, true, [systemTurn bp0], none⟩).state.context.getLast?
      = some (assistantTurn "Hello".data) := by
  have h := streaming_fragments_match_commit bp0 true
    [Except.ok ⟨[some "He".data, none, some "llo".data], none⟩]
    ⟨"q".data, true, true, [systemTurn bp0], none⟩
    ⟨[some "He".data, none, some "llo".data], none⟩
    ⟨"q".data, [systemTurn bp0, userTurn "q".data], true, []⟩ (by decide) rfl
  constructor
  · rw [h.1]
    decide
  · rw [h.2, h.1]
    decide

/-- Claim C7: the prompt inbox is a single overwritten slot: the state
a submission leaves in the prompt slot does not depend in any way on
the previous inbox state (in particular not on an unconsumed earlier
submission, which is silently discarded), and the relay processes
exactly the slot content it picks up — so after submit(A) then
submit(B) before consumption, only B can ever be processed. -/
theorem inbox_overwrite_last_write_wins (fetch : FetchOutcome) (p : List Char)
    (v : Bool) (g g2 : Inbox) (bp : List Char) (debug : Bool) (att : List Attempt)
    (s : RelayState) :
    ((send_message fetch p v g).toOption.map (fun res => res.1.prompt))
      = ((send_message fetch p v g2).toOption.map (fun res => res.1.prompt)) ∧
    (inboxPoll (match send_message fetch p v g with
        | .ok res => res.1.prompt
        | .error _ => g.prompt)
      = inboxPoll (match send_message fetch p v g2 with
        | .ok res => res.1.prompt
        | .error _ => g2.prompt) ∨ (send_message fetch p v g).isOk = false) ∧
    (s.visible = true →
      (relayIterate bp debug att s).events.head? = some ⟨s.prompt, "user"⟩) := by
  refine ⟨?_, ?_, ?_⟩
  · unfold send_message
    cases h1 : ("http".data).isPrefixOf p
    · simp only [h1, Bool.false_eq_true, if_false]
      rfl
    · cases h2 : extract_text_from_blog fetch <;> simp [h1, h2]
  · unfold send_message
    cases h1 : ("http".data).isPrefixOf p
    · left
      simp [h1]
    · cases h2 : extract_text_from_blog fetch
      · right
        simp [h1, h2, Except.isOk, Except.toBool]
      · left
        simp [h1, h2]
  · intro hv
    cases hask : ask bp att ⟨s.prompt, s.context, s.remember, []⟩ with
    | ok stream s1 =>
      cases hexc : stream.iterExc <;> simp [relayIterate, hask, hexc, hv]
    | raised e s1 => simp [relayIterate, hask, hv]
    | exhausted s1 => simp [relayIterate, hask, hv]

/-- Witness for C7 at concrete inputs: two plain submissions in a row,
then the relay picks up the second. -/
theorem inbox_overwrite_last_write_wins_witness :
    ((send_message (Except.ok ⟨200, []⟩) "B".data true ⟨"A".data, true, true⟩).toOption.map
        (fun res => res.1.prompt))
      = ((send_message (Except.ok ⟨200, []⟩) "B".data true
          ⟨"other".data, false, false⟩).toOption.map (fun res => res.1.prompt)) ∧
    (relayIterate bp0 false [Except.ok ⟨[some "y".data], none⟩]
        ⟨"B".data, true, true, [systemTurn bp0], none⟩).events.head?
      = some ⟨"B".data, "user"⟩ := by
  have h := inbox_overwrite_last_write_wins (Except.ok ⟨200, []⟩) "B".data true
    ⟨"A".data, true, true⟩ ⟨"other".data, false, false⟩ bp0 false
    [Except.ok ⟨[some "y".data], none⟩] ⟨"B".data, true, true, [systemTurn bp0], none⟩
  exact ⟨h.1, h.2.2 rfl⟩

/-- Claim C8 is a code bug: with DEBUG on, an exception that escapes
ask (any non-OpenAIError, e.g. raised while creating the request) on
the first loop pass reaches the debug print of the never-assigned local
completion_text, raising an uncaught UnboundLocalError that kills the
relay thread; with DEBUG off the same input ends the iteration
normally. -/
theorem relayloop_debug_crash_eval :
    (relayIterate bp0 true [Except.error (PyExc.otherExc "connection reset".data)]
        ⟨"hi".data, true, true, [systemTurn bp0], none⟩).outcome
      = Outcome.crashedUnboundLocal ∧
    (relayIterate bp0 false [Except.error (PyExc.otherExc "connection reset".data)]
        ⟨"hi".data, true, true, [systemTurn bp0], none⟩).outcome = Outcome.normal ∧
    (relayIterate bp0 true [Except.error (PyExc.otherExc "connection reset".data)]
        ⟨"hi".data, true, true, [systemTurn bp0], some "old".data⟩).outcome
      = Outcome.normal := by
  decide

/-- Claim C9 is a code bug: when the fetch fails (non-200 status or a
raised exception) extract_text_from_blog returns None, and send_message
then evaluates len(blogtext) — raising a TypeError instead of producing
a summarize prompt; only a 200 response yields the well-formed prompt. -/
theorem fetch_failure_raises_typeerror_eval :
    extract_text_from_blog (Except.ok ⟨500, []⟩) = none ∧
    send_message (Except.ok ⟨500, []⟩) "http://example.com/post".data true
        ⟨[], true, true⟩ = Except.error "TypeError" ∧
    send_message (Except.error "connection refused".data) "http://x".data true
        ⟨[], true, true⟩ = Except.error "TypeError" ∧
    send_message (Except.ok ⟨200, ["text".data]⟩) "http://x".data true ⟨[], true, true⟩
      = Except.ok (⟨summarizeHeader ++ "text".data, false, false⟩,
          [⟨"[Reading: http://x]".data, "user"⟩]) := by
  exact ⟨rfl, rfl, rfl, rfl⟩

/-- Claim C10: every exchange the relay completes — stream committed or
error path taken — broadcasts the done marker exactly once, as the last
event, and clears the prompt slot. -/
theorem done_marker_on_every_completed_exchange (bp : List Char) (debug : Bool)
    (att : List Attempt) (s : RelayState)
    (h : (relayIterate bp debug att s).outcome ≠ Outcome.stuck) :
    (relayIterate bp debug att s).events.count doneEvt = 1 ∧
    (relayIterate bp debug att s).events.getLast? = some doneEvt ∧
    (relayIterate bp debug att s).state.prompt = "".data := by
  have husr0 := ask_events_user bp att ⟨s.prompt, s.context, s.remember, []⟩ (by simp)
  have hechoz : (if s.visible then [(⟨s.prompt, "user"⟩ : Evt)] else []).count doneEvt = 0 :=
    count_eq_zero_of_voice_ne "user" _ (echo_voice_user s) doneEvt (by decide)
  cases hask : ask bp att ⟨s.prompt, s.context, s.remember, []⟩ with
  | exhausted s1 =>
    exfalso
    apply h
    simp [relayIterate, hask]
  | raised e s1 =>
    rw [hask] at husr0
    simp only [AskResult.st] at husr0
    have hsz : s1.events.count doneEvt = 0 :=
      count_eq_zero_of_voice_ne "user" _ husr0 doneEvt (by decide)
    refine ⟨?_, ?_, ?_⟩
    · simp only [relayIterate, hask]
      rw [List.count_append, List.count_append, hechoz, hsz]
      decide
    · simp only [relayIterate, hask]
      exact getLast?_append_pair _ _ _
    · simp [relayIterate, hask]
  | ok stream s1 =>
    rw [hask] at husr0
    simp only [AskResult.st] at husr0
    have hsz : s1.events.count doneEvt = 0 :=
      count_eq_zero_of_voice_ne "user" _ husr0 doneEvt (by decide)
    have haiz : ((stream.events.filterMap id).map
        (fun c => (⟨c, "ai"⟩ : Evt))).count doneEvt = 0 :=
      count_eq_zero_of_voice_ne "ai" _ (aiEvs_voice_ai _) doneEvt (by decide)
    cases hexc : stream.iterExc with
    | some e2 =>
      refine ⟨?_, ?_, ?_⟩
      · simp only [relayIterate, hask, hexc]
        rw [List.count_append, List.count_append, List.count_append, hechoz, hsz, haiz]
        decide
      · simp only [relayIterate, hask, hexc]
        exact getLast?_append_pair _ _ _
      · simp [relayIterate, hask, hexc]
    | none =>
      refine ⟨?_, ?_, ?_⟩
      · simp only [relayIterate, hask, hexc]
        rw [List.count_append, List.count_append, List.count_append, hechoz, hsz, haiz]
        decide
      · simp only [relayIterate, hask, hexc]
        simp
      · simp [relayIterate, hask, hexc]

/-- Witness for C10 at concrete inputs, on a success and on a failure. -/
theorem done_marker_on_every_completed_exchange_witness :
    (relayIterate bp0 false [Except.ok ⟨[some "hi".data], none⟩]
        ⟨"q".data, true, true, [systemTurn bp0], none⟩).events.count doneEvt = 1 ∧
    (relayIterate bp0 false [Except.error (PyExc.otherExc "boom".data)]
        ⟨"q".data, true, true, [systemTurn bp0], none⟩).events.getLast? = some doneEvt := by
  constructor
  · exact (done_marker_on_every_completed_exchange bp0 false
      [Except.ok ⟨[some "hi".data], none⟩]
      ⟨"q".data, true, true, [systemTurn bp0], none⟩ (by decide)).1
  · exact (done_marker_on_every_completed_exchange bp0 false
      [Except.error (PyExc.otherExc "boom".data)]
      ⟨"q".data, true, true, [systemTurn bp0], none⟩ (by decide)).2.1

end TinyChat
